import Mathlib

/-!
Verification development for the report lifecycle and access-control engine of
the Hackathon26 medical-responder paperwork repository.

The data model (roles, report states, schema types, users, reports, history
entries) is embedded from `backend/src/types` (part_004) and the SQL schema
(part_005).  The report lifecycle service itself
(`backend/app/services/report_service.py`) is not present in the repository
checkout; the service-level operations below are modelled from the
specification, as noted on each definition.  The realtime broadcaster and the
user route handler are embedded from the TypeScript sources that are present
(`backend/src/services/realtime.service.ts`, `backend/src/routes/users.ts`).
-/

namespace MedReport

/-- The eight user roles, from `UserRole` in backend/src/types (part_004). -/
inductive Role where
  | system_admin
  | dispatcher
  | police_worker
  | police_chief
  | triage_nurse
  | er_doctor
  | er_paramedic
  | er_attending
deriving DecidableEq, Repr

/-- Report lifecycle states, from `ReportState` in backend/src/types (part_004). -/
inductive ReportState where
  | draft
  | in_progress
  | under_review
  | locked
deriving DecidableEq, Repr

/-- Report schema types, from `ReportType` in backend/src/types (part_004). -/
inductive SchemaType where
  | incident
  | medical_chart
deriving DecidableEq, Repr

/-- The error taxonomy of the service layer (spec section 7). -/
inductive Err where
  | notFound
  | accessDenied
  | invalidTransition
  | validationError
  | conflict
deriving DecidableEq, Repr

/-- A user row, from the `users` table (part_005) / `User` in part_004.
Ids are numbers standing in for UUIDs. -/
structure User where
  id : Nat
  org_id : Nat
  role : Role
  supervisor_id : Option Nat
deriving DecidableEq, Repr

/-- A report row, from the `reports` table (part_005) / `Report` in part_004.
`data` is the open JSON-like key-value mapping, embedded as an association
list of strings. -/
structure Report where
  id : Nat
  org_id : Nat
  created_by : Nat
  assigned_to : Nat
  state : ReportState
  schema_type : SchemaType
  data : List (String × String)
  version : Nat
deriving DecidableEq, Repr

/-- A report history row, from the `report_history` table (part_005): a full
data snapshot with its version number. -/
structure HistoryEntry where
  report_id : Nat
  modified_by : Nat
  data : List (String × String)
  version : Nat
deriving DecidableEq, Repr

/-- Lookup of a user by id, as in `UserService.getUserById`
(`SELECT * FROM users WHERE id = $1`, part_006). -/
def findUser (db : List User) (uid : Nat) : Option User :=
  db.find? (fun u => u.id == uid)

/-- One upward step in the supervisor chain: the `supervisor_id` of the user
with the given id (users table, part_005). -/
def nextSup (db : List User) (uid : Nat) : Option Nat :=
  match findUser db uid with
  | none => none
  | some u => u.supervisor_id

/-- The deterministic upward orbit of the supervisor chain: `orbit db s k` is
the id reached from `s` after following `supervisor_id` exactly `k` hops. -/
def orbit (db : List User) (s : Nat) : Nat → Option Nat
  | 0 => some s
  | k + 1 => (orbit db s k).bind (nextSup db)

/-- Modelled from the spec: the permission evaluator's chained-supervision
check (spec section 4.1 and design note on bounded upward traversal); the
implementing `can_user_access_report` in backend/app/services/report_service.py
is not in the repository checkout.  `supReachable db fuel s a` holds when `a`
is reached from `s` by following `supervisor_id` upward between 1 and `fuel`
hops. -/
def supReachable (db : List User) : Nat → Nat → Nat → Bool
  | 0, _, _ => false
  | fuel + 1, s, a =>
    match findUser db s with
    | none => false
    | some u =>
      match u.supervisor_id with
      | none => false
      | some sup => sup == a || supReachable db fuel sup a

/-- Modelled from the spec: `supervises db actorId subordinateId` — the actor
is reachable by following `supervisor_id` upward from the subordinate, with
the hop limit set to the number of users (spec design note: bounded traversal
defends against accidental cycles). -/
def supervises (db : List User) (actorId subordinateId : Nat) : Bool :=
  supReachable db db.length subordinateId actorId

/-- Reachability by the supervisor chain in any positive number of hops. -/
def SupChainP (db : List User) (s a : Nat) : Prop :=
  ∃ k, 1 ≤ k ∧ orbit db s k = some a

/-- The ownership/assignment/supervision conditions of the role capability
table (design.md `ReportAccessRule.condition`). -/
inductive AccessCond where
  | owned
  | assigned
  | supervised
deriving DecidableEq, Repr

/-- Whether an access condition holds for an actor on a report. -/
def condHolds (db : List User) (cond : AccessCond) (actor : User) (r : Report) : Bool :=
  match cond with
  | .owned => actor.id == r.created_by
  | .assigned => actor.id == r.assigned_to
  | .supervised => supervises db actor.id r.assigned_to

/-- Modelled from the spec: the per-role creatable schema types of the 4.1
capability table (design.md `ROLE_PERMISSIONS.canCreate`); the permission
evaluator consuming it in backend/app/services/report_service.py is not in
the repository checkout.  `system_admin` has an empty creatable set. -/
def roleCanCreate : Role → SchemaType → Bool
  | .system_admin, _ => false
  | .dispatcher, .incident => true
  | .police_worker, .incident => true
  | .police_chief, .incident => true
  | .triage_nurse, .medical_chart => true
  | .er_paramedic, .medical_chart => true
  | .er_doctor, .medical_chart => true
  | .er_attending, .medical_chart => true
  | _, _ => false

/-- Modelled from the spec: the states in which each role's edit rule applies
(4.1 capability table; design.md `ROLE_PERMISSIONS.canEdit.states`).
`system_admin` is handled by an override in `canEditData`. -/
def editStates : Role → List ReportState
  | .system_admin => []
  | .dispatcher => [.draft]
  | .triage_nurse => [.draft]
  | .police_worker => [.draft, .in_progress]
  | .er_paramedic => [.draft, .in_progress]
  | .er_doctor => [.draft, .in_progress]
  | .police_chief => [.draft, .in_progress]
  | .er_attending => [.draft, .in_progress]

/-- Modelled from the spec: the relationship condition of each role's edit
rule (4.1 capability table; design.md `ROLE_PERMISSIONS.canEdit.condition`). -/
def editCond : Role → AccessCond
  | .system_admin => .owned
  | .dispatcher => .owned
  | .triage_nurse => .owned
  | .police_worker => .assigned
  | .er_paramedic => .assigned
  | .er_doctor => .assigned
  | .police_chief => .supervised
  | .er_attending => .supervised

/-- Modelled from the spec: the relationship condition of each role's delete
rule (4.1 capability table; design.md `ROLE_PERMISSIONS.canDelete.condition`);
every role's delete rule applies in state `draft` only. -/
def deleteCond : Role → AccessCond
  | .system_admin => .owned
  | .dispatcher => .owned
  | .triage_nurse => .owned
  | .police_worker => .assigned
  | .er_paramedic => .assigned
  | .er_doctor => .supervised
  | .police_chief => .supervised
  | .er_attending => .supervised

/-- Modelled from the spec: the data-edit permission check of the missing
report service (spec 4.1 table plus 4.3(b): data edits on a locked report
always fail, system_admin's override notwithstanding; otherwise system_admin
has a full override and every other role needs its state set and condition). -/
def canEditData (db : List User) (actor : User) (r : Report) (st : ReportState) : Bool :=
  if st == .locked then false
  else if actor.role == .system_admin then true
  else (editStates actor.role).contains st && condHolds db (editCond actor.role) actor r

/-- Modelled from the spec: the reviewer roles entitled to move a report out
of `under_review` (spec 4.1 and glossary). -/
def isReviewer (role : Role) : Bool :=
  role == .police_chief || role == .er_attending || role == .system_admin

/-- Modelled from the spec: the lifecycle transition table of section 4.2
(design.md State Transition Model); the state-machine code in
backend/app/services/report_service.py is not in the repository checkout.
Exactly five edges are admitted. -/
def validTransition : ReportState → ReportState → Bool
  | .draft, .in_progress => true
  | .in_progress, .under_review => true
  | .in_progress, .draft => true
  | .under_review, .locked => true
  | .under_review, .in_progress => true
  | _, _ => false

/-- Modelled from the spec: the per-edge actor requirement of the 4.2
transition table (owner/assignee with edit permission for moves out of draft
and in_progress; reviewer role of the same organization for moves out of
under_review). -/
def transitionAllowed (db : List User) (actor : User) (r : Report) (tgt : ReportState) : Bool :=
  match r.state, tgt with
  | .draft, .in_progress =>
      (actor.id == r.created_by || actor.id == r.assigned_to) && canEditData db actor r r.state
  | .in_progress, .under_review => actor.id == r.assigned_to && canEditData db actor r r.state
  | .in_progress, .draft => actor.id == r.assigned_to && canEditData db actor r r.state
  | .under_review, .locked => isReviewer actor.role && actor.org_id == r.org_id
  | .under_review, .in_progress => isReviewer actor.role && actor.org_id == r.org_id
  | _, _ => false

/-- Modelled from the spec: the view permission of section 4.1 (admin, or
creator, or assignee, or supervisor reachable upward from the assignee, or a
chief/attending of the report's own organization); the implementing
`can_user_access_report` in backend/app/services/report_service.py is not in
the repository checkout. -/
def canView (db : List User) (actor : User) (r : Report) : Bool :=
  actor.role == .system_admin ||
  actor.id == r.created_by ||
  actor.id == r.assigned_to ||
  supervises db actor.id r.assigned_to ||
  ((actor.role == .police_chief || actor.role == .er_attending) && actor.org_id == r.org_id)

/-- The patch accepted by `update` (spec 4.3; `UpdateReportData` in
frontend/911-notebook/services/reportService.ts). -/
structure Patch where
  data : Option (List (String × String))
  state : Option ReportState
  assigned_to : Option Nat
deriving DecidableEq, Repr

/-- A committed write: the new report row together with the history entry
appended in the same transaction. -/
structure UpdateResult where
  report : Report
  entry : HistoryEntry
deriving DecidableEq, Repr

/-- A patch carrying no field at all. -/
def patchIsEmpty (p : Patch) : Bool :=
  p.data.isNone && p.state.isNone && p.assigned_to.isNone

/-- Modelled from the spec: the commit step of `update` (spec 4.3(c)): apply
the accepted changes, increment the version by one, and append a history
entry capturing the full resulting data under the new version. -/
def commitPatch (actor : User) (r : Report) (p : Patch) (newState : ReportState) : UpdateResult :=
  let newData := p.data.getD r.data
  let newReport : Report :=
    { r with
      state := newState
      data := newData
      assigned_to := p.assigned_to.getD r.assigned_to
      version := r.version + 1 }
  ⟨newReport, ⟨r.id, actor.id, newData, r.version + 1⟩⟩

/-- Modelled from the spec: steps (b) and (c) of `update` (spec 4.3): a data
edit requires edit permission under the report's current state `r.state`
(before any state change in the same call), a reassignment requires the new
assignee to exist and to be of the report's organization, and then the write
commits. -/
def applyDataAndAssign (db : List User) (actor : User) (r : Report) (p : Patch)
    (newState : ReportState) : Except Err UpdateResult :=
  if p.data.isSome && !(canEditData db actor r r.state) then .error .accessDenied
  else
    match p.assigned_to with
    | none => .ok (commitPatch actor r p newState)
    | some a =>
      match findUser db a with
      | none => .error .notFound
      | some u =>
        if u.org_id != r.org_id then .error .validationError
        else .ok (commitPatch actor r p newState)

/-- Modelled from the spec: the `update` operation of the report lifecycle
service (spec 4.3); backend/app/services/report_service.py is not in the
repository checkout.  A state change is checked first against the transition
table (InvalidTransition) and then against the per-edge actor requirement
(AccessDenied); an empty patch is a malformed patch (ValidationError). -/
def updateReport (db : List User) (actor : User) (r : Report) (p : Patch) :
    Except Err UpdateResult :=
  if patchIsEmpty p then .error .validationError
  else
    match p.state with
    | some tgt =>
      if !(validTransition r.state tgt) then .error .invalidTransition
      else if !(transitionAllowed db actor r tgt) then .error .accessDenied
      else applyDataAndAssign db actor r p tgt
    | none => applyDataAndAssign db actor r p r.state

/-- Modelled from the spec: the `create` operation of the report lifecycle
service (spec 4.3); backend/app/services/report_service.py is not in the
repository checkout.  The actor's role must be entitled to create the schema
type, the assignee must exist and be of the actor's organization; the new
report starts at version 1 in state draft and a version-1 history entry is
written with it. -/
def createReport (db : List User) (actor : User) (t : SchemaType) (assignedTo : Nat)
    (d : List (String × String)) (newId : Nat) : Except Err UpdateResult :=
  if !(roleCanCreate actor.role t) then .error .accessDenied
  else
    match findUser db assignedTo with
    | none => .error .notFound
    | some u =>
      if u.org_id != actor.org_id then .error .validationError
      else
        .ok ⟨⟨newId, actor.org_id, actor.id, assignedTo, .draft, t, d, 1⟩,
             ⟨newId, actor.id, d, 1⟩⟩

/-- Modelled from the spec: the `delete` operation of the report lifecycle
service (spec 4.3 and the 4.1 delete rules); backend/app/services/report_service.py
is not in the repository checkout.  Deletion always requires state draft
(ValidationError otherwise, for every role including system_admin), then the
role's delete condition (AccessDenied otherwise); on success the report's
history entries are removed with it, mirroring `report_history.report_id
... ON DELETE CASCADE` in the SQL schema (part_005). -/
def deleteReport (db : List User) (actor : User) (r : Report)
    (hist : List HistoryEntry) : Except Err (List HistoryEntry) :=
  if r.state != .draft then .error .validationError
  else if !(actor.role == .system_admin || condHolds db (deleteCond actor.role) actor r)
  then .error .accessDenied
  else .ok (hist.filter (fun e => e.report_id != r.id))

/-- A report together with its history rows, in append order. -/
structure ReportWithHistory where
  report : Report
  history : List HistoryEntry
deriving DecidableEq, Repr

/-- The history invariant of the spec (section 3 and section 8): the history
versions of a report are exactly the contiguous sequence 1..version. -/
def historyInv (s : ReportWithHistory) : Prop :=
  s.history.map HistoryEntry.version = List.range' 1 s.report.version

/-- Modelled from the spec: `create` at the level of the report-plus-history
pair written in one transaction. -/
def createRWH (db : List User) (actor : User) (t : SchemaType) (assignedTo : Nat)
    (d : List (String × String)) (newId : Nat) : Except Err ReportWithHistory :=
  (createReport db actor t assignedTo d newId).map (fun u => ⟨u.report, [u.entry]⟩)

/-- Modelled from the spec: `update` at the level of the report-plus-history
pair; the history entry of the committed write is appended atomically with
the report row. -/
def updateRWH (db : List User) (actor : User) (s : ReportWithHistory) (p : Patch) :
    Except Err ReportWithHistory :=
  (updateReport db actor s.report p).map (fun u => ⟨u.report, s.history ++ [u.entry]⟩)

/-- Modelled from the spec: the optimistic-concurrency commit of section 5 —
an update reads a version, and at commit time the entity store compares the
read version with the current row version; a mismatch (a concurrent update
committed first) fails with Conflict instead of overwriting. -/
def commitUpdate (store : Nat → Option Report) (rid readVersion : Nat)
    (newData : List (String × String)) : Except Err (Nat → Option Report) :=
  match store rid with
  | none => .error .notFound
  | some r =>
    if r.version != readVersion then .error .conflict
    else .ok (fun i => if i = rid then some { r with data := newData, version := r.version + 1 } else store i)

/-- The outcome of the IoT publish attempted by the broadcaster, from
`iotClient.send(new PublishCommand ...)` in
backend/src/services/realtime.service.ts. -/
inductive PublishOutcome where
  | success
  | failure (msg : String)
deriving DecidableEq, Repr

/-- What `RealtimeService.broadcastReportChange` leaves behind: its console
log lines and its result as seen by its caller (an `Except` standing for the
promise that either resolves or rejects). -/
structure BroadcastResult where
  log : List String
  result : Except String Unit
deriving Repr

/-- `RealtimeService.broadcastReportChange` from
backend/src/services/realtime.service.ts: on success it logs the topic; on a
publish failure the catch block logs the error and then re-throws it
(`console.error(...); throw error`). -/
def broadcastReportChange (publish : PublishOutcome) (reportId : String) : BroadcastResult :=
  match publish with
  | .success => ⟨["Broadcasted change to topic: reports/" ++ reportId ++ "/updates"], .ok ()⟩
  | .failure e => ⟨["Failed to broadcast report change: " ++ e], .error e⟩

/-- The outcome of an update followed by the broadcaster notification:
the durable committed write, the broadcaster's log, and the error (if any)
that propagates to the caller. -/
structure OpOutcome where
  committed : Option UpdateResult
  log : List String
  raised : Option String
deriving Repr

/-- Modelled from the spec: the report service notifying the broadcaster
after a successful update (spec 4.3 side effect); the calling code in
backend/app/services/report_service.py is not in the repository checkout, so
the broadcast is placed after the committed write as the spec describes,
while the broadcaster itself is the embedded
`RealtimeService.broadcastReportChange`. -/
def updateAndBroadcast (db : List User) (actor : User) (r : Report) (p : Patch)
    (publish : PublishOutcome) : OpOutcome :=
  match updateReport db actor r p with
  | .error _ => ⟨none, [], none⟩
  | .ok u =>
    let b := broadcastReportChange publish (toString u.report.id)
    ⟨some u, b.log,
      match b.result with
      | .ok _ => none
      | .error e => some e⟩

/-- The verified identity of an HTTP caller, from the Cognito JWT claims
(`custom:org_id`, `custom:role`) used in backend/src/routes/users.ts. -/
structure Caller where
  org_id : Nat
  role : Role
deriving DecidableEq, Repr

/-- The responses the GET /api/users/:id handler can produce. -/
inductive UserResponse where
  | notFoundResp
  | accessDeniedResp
  | okResp (u : User)
deriving DecidableEq, Repr

/-- The HTTP status of each response of the GET /api/users/:id handler
(404 User not found, 403 Access denied, 200). -/
def statusOf : UserResponse → Nat
  | .notFoundResp => 404
  | .accessDeniedResp => 403
  | .okResp _ => 200

/-- The GET /api/users/:id handler from backend/src/routes/users.ts: it looks
the user up first and returns 404 when the id does not exist; only then does
it compare organizations (skipped for a system_admin caller) and return 403. -/
def getUserByIdRoute (db : List User) (caller : Caller) (uid : Nat) : UserResponse :=
  match findUser db uid with
  | none => .notFoundResp
  | some u =>
    if u.org_id != caller.org_id && caller.role != .system_admin then .accessDeniedResp
    else .okResp u

/-- Two optimistic commits against the same report, the second starting from
the store the first produced (its read version having been taken before the
first committed). -/
def commitTwice (store : Nat → Option Report) (rid v1 v2 : Nat)
    (d1 d2 : List (String × String)) : Except Err (Nat → Option Report) :=
  match commitUpdate store rid v1 d1 with
  | .error e => .error e
  | .ok s1 => commitUpdate s1 rid v2 d2

/-! Concrete fixtures used by the witness theorems. -/

/-- A dispatcher of organization 10. -/
def uDispatcher : User := ⟨1, 10, .dispatcher, none⟩

/-- A police worker of organization 10, supervised by the chief. -/
def uWorker : User := ⟨2, 10, .police_worker, some 3⟩

/-- The police chief of organization 10. -/
def uChief : User := ⟨3, 10, .police_chief, none⟩

/-- A triage nurse of organization 20. -/
def uNurse : User := ⟨7, 20, .triage_nurse, none⟩

/-- A system administrator of organization 10. -/
def uAdmin : User := ⟨8, 10, .system_admin, none⟩

/-- The user directory of the fixtures. -/
def dbFix : List User := [uDispatcher, uWorker, uChief, uNurse, uAdmin]

/-- A locked incident report of organization 10. -/
def repLocked : Report := ⟨100, 10, 1, 2, .locked, .incident, [("k", "v")], 4⟩

/-- An under-review incident report of organization 10. -/
def repUnderReview : Report := ⟨101, 10, 1, 2, .under_review, .incident, [], 3⟩

/-- A draft incident report of organization 10, created by and assigned to
the dispatcher. -/
def repDraft : Report := ⟨102, 10, 1, 1, .draft, .incident, [("a", "b")], 1⟩

/-- An in-progress incident report of organization 10. -/
def repInProgress : Report := ⟨103, 10, 1, 2, .in_progress, .incident, [], 2⟩

/-- The draft report together with its version-1 history entry. -/
def rwh0 : ReportWithHistory := ⟨repDraft, [⟨102, 1, [("a", "b")], 1⟩]⟩

/-- A data-only patch. -/
def patchData : Patch := ⟨some [("a", "c")], none, none⟩

/-- The committed write produced by applying `patchData` to `repDraft`. -/
def updRes : UpdateResult :=
  ⟨⟨102, 10, 1, 1, .draft, .incident, [("a", "c")], 2⟩, ⟨102, 1, [("a", "c")], 2⟩⟩

/-- The report-plus-history pair after that committed write. -/
def rwh1 : ReportWithHistory :=
  ⟨⟨102, 10, 1, 1, .draft, .incident, [("a", "c")], 2⟩,
   [⟨102, 1, [("a", "b")], 1⟩, ⟨102, 1, [("a", "c")], 2⟩]⟩

/-- An entity store holding only the draft report. -/
def storeFix : Nat → Option Report := fun i => if i = 102 then some repDraft else none

/-! Helper lemmas on the supervisor-chain orbit. -/

/-- Splitting an orbit: following `i + j` hops is following `i` hops and then
`j` more from wherever that arrived. -/
theorem orbit_add (db : List User) (s : Nat) (i j : Nat) :
    orbit db s (i + j) = (orbit db s i).bind (fun y => orbit db y j) := by
  induction j with
  | zero =>
    cases h : orbit db s i <;> simp [orbit, h]
  | succ j ih =>
    show (orbit db s (i + j)).bind (nextSup db) = _
    rw [ih, Option.bind_assoc]
    rfl

/-- If the orbit is still alive at step `k`, it was alive at every earlier
step. -/
theorem orbit_isSome_of_le (db : List User) (s a : Nat) {i k : Nat}
    (h : orbit db s k = some a) (hik : i ≤ k) : (orbit db s i).isSome := by
  obtain ⟨d, rfl⟩ : ∃ d, k = i + d := ⟨k - i, by omega⟩
  rw [orbit_add] at h
  cases ho : orbit db s i <;> simp [ho] at h ⊢

/-- Every strictly-intermediate point of a live orbit is the id of a user
present in the directory. -/
theorem orbit_mem_of_lt (db : List User) (s a : Nat) {i k : Nat}
    (h : orbit db s k = some a) (hik : i < k) :
    ∃ y u, orbit db s i = some y ∧ findUser db y = some u := by
  have hs : (orbit db s (i + 1)).isSome := orbit_isSome_of_le db s a h (by omega)
  cases ho : orbit db s i with
  | none => rw [show i + 1 = i + 1 from rfl, orbit_add, ho] at hs; simp at hs
  | some y =>
    refine ⟨y, ?_⟩
    have : orbit db s (i + 1) = (nextSup db) y := by
      rw [orbit_add, ho]; simp [orbit]
    rw [this] at hs
    cases hu : findUser db y with
    | none => rw [nextSup, hu] at hs; simp at hs
    | some u => exact ⟨u, rfl, rfl⟩

/-- Shortening: if the supervisor chain reaches `a` from `s` in any positive
number of hops, it does so within `db.length` hops. -/
theorem supChainP_bounded (db : List User) (s a : Nat) (h : SupChainP db s a) :
    ∃ k, 1 ≤ k ∧ k ≤ db.length ∧ orbit db s k = some a := by
  classical
  have hex : ∃ k, 1 ≤ k ∧ orbit db s k = some a := h
  by_cases hle : Nat.find hex ≤ db.length
  · exact ⟨Nat.find hex, (Nat.find_spec hex).1, hle, (Nat.find_spec hex).2⟩
  exfalso
  push_neg at hle
  have hk0 : 1 ≤ Nat.find hex ∧ orbit db s (Nat.find hex) = some a := Nat.find_spec hex
  have hmaps : ∀ i : Fin (Nat.find hex),
      ∃ y u, orbit db s i.val = some y ∧ findUser db y = some u :=
    fun i => orbit_mem_of_lt db s a hk0.2 i.isLt
  have key : ∀ i j : Fin (Nat.find hex), i.val < j.val →
      orbit db s i.val = orbit db s j.val → False := by
    intro i j hlt heq
    have hshift : orbit db s (i.val + (Nat.find hex - j.val)) =
        orbit db s (j.val + (Nat.find hex - j.val)) := by
      rw [orbit_add, orbit_add, heq]
    have hj : j.val + (Nat.find hex - j.val) = Nat.find hex := by
      have := j.isLt; omega
    rw [hj, hk0.2] at hshift
    have hlt2 : i.val + (Nat.find hex - j.val) < Nat.find hex := by
      have := j.isLt; omega
    exact Nat.find_min hex hlt2 ⟨by have := j.isLt; omega, hshift⟩
  have hf : ∀ i : Fin (Nat.find hex),
      (orbit db s i.val).getD 0 ∈ (db.map User.id).toFinset := by
    intro i
    obtain ⟨y, u, hy, hu⟩ := hmaps i
    have hval : (orbit db s i.val).getD 0 = y := by rw [hy]; rfl
    rw [hval]
    have hu2 : List.find? (fun w => w.id == y) db = some u := hu
    have hm := List.mem_of_find?_eq_some hu2
    have hb := List.find?_some hu2
    have hid : u.id = y := by simpa using hb
    simp only [List.mem_toFinset, List.mem_map]
    exact ⟨u, hm, hid⟩
  have hcard : ((db.map User.id).toFinset).card <
      (Finset.univ : Finset (Fin (Nat.find hex))).card := by
    have h1 : ((db.map User.id).toFinset).card ≤ db.length := by
      have := List.toFinset_card_le (db.map User.id)
      simpa using this
    rw [Finset.card_univ, Fintype.card_fin]
    omega
  obtain ⟨i, _, j, _, hij, hfij⟩ :=
    Finset.exists_ne_map_eq_of_card_lt_of_maps_to hcard (fun i _ => hf i)
  obtain ⟨y1, u1, hy1, _⟩ := hmaps i
  obtain ⟨y2, u2, hy2, _⟩ := hmaps j
  have heq : orbit db s i.val = orbit db s j.val := by
    rw [hy1, hy2]
    rw [hy1, hy2] at hfij
    simpa using hfij
  rcases Nat.lt_or_ge i.val j.val with hlt | hge
  · exact key i j hlt heq
  · have hne : i.val ≠ j.val := fun hv => hij (Fin.ext hv)
    have hlt : j.val < i.val := by omega
    exact key j i hlt heq.symm

/-- The fuel-bounded evaluator check agrees with the orbit: it succeeds
exactly when some hop count between 1 and the fuel reaches the actor. -/
theorem supReachable_iff (db : List User) (a : Nat) :
    ∀ fuel s, supReachable db fuel s a = true ↔
      ∃ k, 1 ≤ k ∧ k ≤ fuel ∧ orbit db s k = some a := by
  intro fuel
  induction fuel with
  | zero =>
    intro s
    simp only [supReachable]
    constructor
    · intro h; exact absurd h (by simp)
    · rintro ⟨k, h1, h2, _⟩; omega
  | succ fuel ih =>
    intro s
    cases hfu : findUser db s with
    | none =>
      simp only [supReachable, hfu]
      constructor
      · intro h; exact absurd h (by simp)
      · rintro ⟨k, hk1, hk2, horb⟩
        have h1 : orbit db s 1 = none := by simp [orbit, nextSup, hfu]
        obtain ⟨d, rfl⟩ : ∃ d, k = 1 + d := ⟨k - 1, by omega⟩
        rw [orbit_add, h1] at horb
        simp at horb
    | some u =>
      cases hsup : u.supervisor_id with
      | none =>
        simp only [supReachable, hfu, hsup]
        constructor
        · intro h; exact absurd h (by simp)
        · rintro ⟨k, hk1, hk2, horb⟩
          have h1 : orbit db s 1 = none := by simp [orbit, nextSup, hfu, hsup]
          obtain ⟨d, rfl⟩ : ∃ d, k = 1 + d := ⟨k - 1, by omega⟩
          rw [orbit_add, h1] at horb
          simp at horb
      | some sup =>
        have horb1 : orbit db s 1 = some sup := by simp [orbit, nextSup, hfu, hsup]
        simp only [supReachable, hfu, hsup]
        constructor
        · intro h
          rcases Bool.or_eq_true_iff.mp h with h | h
          · have : sup = a := by simpa using h
            exact ⟨1, le_refl 1, by omega, by rw [horb1, this]⟩
          · obtain ⟨m, hm1, hm2, hmo⟩ := (ih sup).1 h
            refine ⟨1 + m, by omega, by omega, ?_⟩
            rw [orbit_add, horb1]
            simpa using hmo
        · rintro ⟨k, hk1, hk2, hko⟩
          obtain ⟨m, rfl⟩ : ∃ m, k = 1 + m := ⟨k - 1, by omega⟩
          rw [orbit_add, horb1] at hko
          simp only [Option.some_bind] at hko
          cases m with
          | zero =>
            have : sup = a := by simpa [orbit] using hko
            apply Bool.or_eq_true_iff.mpr
            left
            simpa using this
          | succ m2 =>
            apply Bool.or_eq_true_iff.mpr
            right
            exact (ih sup).2 ⟨m2 + 1, by omega, by omega, hko⟩

/-- The `supervises` check is exactly chained-supervision reachability. -/
theorem supervises_iff (db : List User) (aid sid : Nat) :
    supervises db aid sid = true ↔ SupChainP db sid aid := by
  constructor
  · intro h
    obtain ⟨k, h1, _, h3⟩ := (supReachable_iff db aid db.length sid).1 h
    exact ⟨k, h1, h3⟩
  · intro h
    obtain ⟨k, h1, h2, h3⟩ := supChainP_bounded db sid aid h
    exact (supReachable_iff db aid db.length sid).2 ⟨k, h1, h2, h3⟩

/-! Helper lemmas on the service operations. -/

/-- A successful `applyDataAndAssign` always delivers the committed patch. -/
theorem applyDataAndAssign_ok {db : List User} {actor : User} {r : Report} {p : Patch}
    {ns : ReportState} {u : UpdateResult}
    (h : applyDataAndAssign db actor r p ns = .ok u) : u = commitPatch actor r p ns := by
  unfold applyDataAndAssign at h
  split at h
  · simp at h
  · split at h
    · simp at h
      exact h.symm
    · split at h
      · simp at h
      · split at h
        · simp at h
        · simp at h
          exact h.symm

/-- A successful data-carrying `applyDataAndAssign` passed the edit check
against the report's current state. -/
theorem applyDataAndAssign_ok_editCheck {db : List User} {actor : User} {r : Report}
    {p : Patch} {ns : ReportState} {u : UpdateResult}
    (h : applyDataAndAssign db actor r p ns = .ok u) (hd : p.data.isSome = true) :
    canEditData db actor r r.state = true := by
  unfold applyDataAndAssign at h
  split at h
  · simp at h
  · rename_i hcond
    simp [hd] at hcond
    exact hcond

/-- A successful `updateReport` always delivers the committed patch: version
incremented by one and a matching history entry snapshot. -/
theorem updateReport_ok {db : List User} {actor : User} {r : Report} {p : Patch}
    {u : UpdateResult} (h : updateReport db actor r p = .ok u) :
    u.report.version = r.version + 1 ∧ u.entry.version = r.version + 1 ∧
      u.entry.data = u.report.data ∧ u.entry.report_id = r.id := by
  have hc : ∃ ns, u = commitPatch actor r p ns := by
    unfold updateReport at h
    split at h
    · simp at h
    · split at h
      · rename_i tgt heq
        split at h
        · simp at h
        · split at h
          · simp at h
          · exact ⟨tgt, applyDataAndAssign_ok h⟩
      · exact ⟨r.state, applyDataAndAssign_ok h⟩
  obtain ⟨ns, rfl⟩ := hc
  simp [commitPatch]

/-- A successful data-carrying `updateReport` passed the edit check against
the report's current (pre-transition) state. -/
theorem updateReport_ok_editCheck {db : List User} {actor : User} {r : Report}
    {p : Patch} {u : UpdateResult} (h : updateReport db actor r p = .ok u)
    (hd : p.data.isSome = true) : canEditData db actor r r.state = true := by
  unfold updateReport at h
  split at h
  · simp at h
  · split at h
    · split at h
      · simp at h
      · split at h
        · simp at h
        · exact applyDataAndAssign_ok_editCheck h hd
    · exact applyDataAndAssign_ok_editCheck h hd

/-- The transition table has no edge out of `locked`. -/
theorem validTransition_locked (t : ReportState) : validTransition .locked t = false := by
  cases t <;> rfl

/-! Claim theorems. -/

/-- Claim C5: an actor may view a report exactly when the actor is a
system_admin, or the creator, or the assignee, or reachable from the assignee
by following `supervisor_id` upward any number of hops, or a police_chief or
er_attending of the report's own organization. -/
theorem view_permission_characterization (db : List User) (actor : User) (r : Report) :
    canView db actor r = true ↔
      (actor.role = .system_admin ∨ actor.id = r.created_by ∨ actor.id = r.assigned_to ∨
       SupChainP db r.assigned_to actor.id ∨
       ((actor.role = .police_chief ∨ actor.role = .er_attending) ∧
        actor.org_id = r.org_id)) := by
  have hsup := supervises_iff db actor.id r.assigned_to
  unfold canView
  simp only [Bool.or_eq_true, Bool.and_eq_true, beq_iff_eq]
  rw [hsup]
  tauto

/-- Claim C1: requesting the transition to `locked` succeeds exactly when the
report is under review and the actor is a police_chief, er_attending or
system_admin of the report's organization; any failure is InvalidTransition
or AccessDenied. -/
theorem lock_transition_characterization (db : List User) (actor : User) (r : Report) :
    ((updateReport db actor r ⟨none, some .locked, none⟩).isOk = true ↔
      (r.state = .under_review ∧
       (actor.role = .police_chief ∨ actor.role = .er_attending ∨
        actor.role = .system_admin) ∧
       actor.org_id = r.org_id)) ∧
    (∀ e, updateReport db actor r ⟨none, some .locked, none⟩ = .error e →
       e = .invalidTransition ∨ e = .accessDenied) := by
  have hrev : isReviewer actor.role = true ↔
      (actor.role = .police_chief ∨ actor.role = .er_attending ∨
       actor.role = .system_admin) := by
    cases actor.role <;> simp [isReviewer]
  have keyeq : (updateReport db actor r ⟨none, some .locked, none⟩).isOk =
      ((r.state == ReportState.under_review) &&
        (isReviewer actor.role && (actor.org_id == r.org_id))) := by
    cases hst : r.state <;>
      cases hb : (isReviewer actor.role && (actor.org_id == r.org_id)) <;>
        simp [updateReport, patchIsEmpty, validTransition, transitionAllowed,
          applyDataAndAssign, hst, hb, Except.isOk, Except.toBool]
  constructor
  · rw [keyeq]
    simp only [Bool.and_eq_true, beq_iff_eq]
    rw [hrev]
  · intro e he
    cases hst : r.state <;>
      cases hb : (isReviewer actor.role && (actor.org_id == r.org_id)) <;>
        simp [updateReport, patchIsEmpty, validTransition, transitionAllowed,
          applyDataAndAssign, hst, hb] at he <;>
      first
        | exact Or.inl he.symm
        | exact Or.inl he
        | exact Or.inr he.symm

/-- Claim C1 witness: a same-organization police chief locking an
under-review report succeeds. -/
theorem lock_transition_characterization_witness :
    (updateReport dbFix uChief repUnderReview ⟨none, some .locked, none⟩).isOk = true :=
  (lock_transition_characterization dbFix uChief repUnderReview).1.mpr
    ⟨rfl, Or.inl rfl, rfl⟩

/-- Claim C3: the transition table admits exactly the five edges
draft→in_progress, in_progress→under_review, in_progress→draft,
under_review→locked and under_review→in_progress; draft→locked and every
edge out of locked are absent, and any requested transition outside the
table fails with InvalidTransition for every actor. -/
theorem state_machine_exactly_five_transitions :
    (∀ f t, validTransition f t = true ↔
       ((f = .draft ∧ t = .in_progress) ∨ (f = .in_progress ∧ t = .under_review) ∨
        (f = .in_progress ∧ t = .draft) ∨ (f = .under_review ∧ t = .locked) ∨
        (f = .under_review ∧ t = .in_progress))) ∧
    validTransition .draft .locked = false ∧
    (∀ t, validTransition .locked t = false) ∧
    (∀ db (actor : User) (r : Report) tgt pd pa, validTransition r.state tgt = false →
       updateReport db actor r ⟨pd, some tgt, pa⟩ = .error .invalidTransition) := by
  refine ⟨?_, rfl, validTransition_locked, ?_⟩
  · intro f t
    cases f <;> cases t <;> simp [validTransition]
  · intro db actor r tgt pd pa h
    simp [updateReport, patchIsEmpty, h]

/-- Claim C3 witness: no actor can move a locked report back to draft. -/
theorem state_machine_exactly_five_transitions_witness :
    updateReport dbFix uAdmin repLocked ⟨none, some .draft, none⟩ =
      .error .invalidTransition :=
  state_machine_exactly_five_transitions.2.2.2 dbFix uAdmin repLocked .draft none none rfl

/-- Claim C4: creation fails with AccessDenied for every actor whose role's
creatable set does not contain the schema type; in particular a triage_nurse
cannot create an incident report, and system_admin's creatable set is empty
for every schema type. -/
theorem create_requires_creatable_role :
    (∀ db (actor : User) t assignedTo d nid, roleCanCreate actor.role t = false →
       createReport db actor t assignedTo d nid = .error .accessDenied) ∧
    roleCanCreate .triage_nurse .incident = false ∧
    (∀ t, roleCanCreate .system_admin t = false) := by
  refine ⟨?_, rfl, ?_⟩
  · intro db actor t a d nid h
    simp [createReport, h]
  · intro t
    cases t <;> rfl

/-- Claim C4 witness: a triage nurse creating an incident report is
rejected with AccessDenied. -/
theorem create_requires_creatable_role_witness :
    createReport dbFix uNurse .incident 7 [] 200 = .error .accessDenied :=
  create_requires_creatable_role.1 dbFix uNurse .incident 7 [] 200 rfl

/-- Claim C2: a created report has version 1 with a single version-1 history
snapshot, and every committed update increments the version by exactly one
and appends exactly one history entry — a full snapshot of the resulting
data under the new version — keeping the history versions equal to the
contiguous sequence 1..version. -/
theorem version_history_contiguous :
    (∀ db (actor : User) t assignedTo d nid s,
       createRWH db actor t assignedTo d nid = .ok s →
       s.report.version = 1 ∧ historyInv s) ∧
    (∀ db (actor : User) s p s2, historyInv s → updateRWH db actor s p = .ok s2 →
       s2.report.version = s.report.version + 1 ∧ historyInv s2 ∧
       ∃ e, s2.history = s.history ++ [e] ∧ e.version = s2.report.version ∧
         e.data = s2.report.data) := by
  constructor
  · intro db actor t assignedTo d nid s h
    unfold createRWH createReport at h
    split at h
    · simp [Except.map] at h
    · split at h
      · simp [Except.map] at h
      · split at h
        · simp [Except.map] at h
        · simp only [Except.map, Except.ok.injEq] at h
          subst h
          exact ⟨rfl, by simp [historyInv, List.range']⟩
  · intro db actor s p s2 hinv h
    unfold updateRWH at h
    cases hu : updateReport db actor s.report p with
    | error e => rw [hu] at h; simp [Except.map] at h
    | ok u =>
      rw [hu] at h
      simp only [Except.map, Except.ok.injEq] at h
      subst h
      obtain ⟨hv, hev, hed, _⟩ := updateReport_ok hu
      refine ⟨by simpa using hv, ?_, u.entry, rfl, by simp [hev, hv], by simpa using hed⟩
      unfold historyInv at hinv ⊢
      simp only [List.map_append, List.map_cons, List.map_nil, hinv, hv, hev]
      rw [List.range'_concat]
      simp [Nat.add_comm]

/-- Claim C2 witness: the dispatcher's draft at version 1 with one history
entry, updated once, reaches version 2 with history versions 1, 2. -/
theorem version_history_contiguous_witness :
    updateRWH dbFix uDispatcher rwh0 patchData = .ok rwh1 ∧
      rwh1.report.version = rwh0.report.version + 1 ∧ historyInv rwh1 := by
  have hok : updateRWH dbFix uDispatcher rwh0 patchData = .ok rwh1 := rfl
  have hinv : historyInv rwh0 := by
    unfold historyInv rwh0 repDraft
    rfl
  have h := version_history_contiguous.2 dbFix uDispatcher rwh0 patchData rwh1 hinv hok
  exact ⟨hok, h.1, h.2.1⟩

/-- Claim C6: an update whose patch carries data always fails on a locked
report, for every actor including system_admin; and whenever a data-carrying
update succeeds, the edit permission held under the report's current state,
the one from before any state change requested in the same call. -/
theorem locked_reports_reject_data_edits :
    (∀ db (actor : User) (r : Report) d pst pa, r.state = .locked →
       (updateReport db actor r ⟨some d, pst, pa⟩).isOk = false) ∧
    (∀ db (actor : User) (r : Report) d pst pa u,
       updateReport db actor r ⟨some d, pst, pa⟩ = .ok u →
       canEditData db actor r r.state = true) := by
  constructor
  · intro db actor r d pst pa hst
    cases pst with
    | some tgt =>
      simp [updateReport, patchIsEmpty, hst, validTransition_locked, Except.isOk,
        Except.toBool]
    | none =>
      simp [updateReport, patchIsEmpty, applyDataAndAssign, canEditData, hst,
        Except.isOk, Except.toBool]
  · intro db actor r d pst pa u h
    exact updateReport_ok_editCheck h rfl

/-- Claim C6 witness: even the system administrator's data edit on a locked
report fails. -/
theorem locked_reports_reject_data_edits_witness :
    (updateReport dbFix uAdmin repLocked ⟨some [("x", "y")], none, none⟩).isOk = false :=
  locked_reports_reject_data_edits.1 dbFix uAdmin repLocked [("x", "y")] none none rfl

/-- Claim C7: deletion fails with ValidationError for every actor — including
system_admin — whenever the report is not a draft; and a successful deletion
removes the report's history entries with it. -/
theorem delete_requires_draft_and_cascades :
    (∀ db (actor : User) (r : Report) hist, r.state ≠ .draft →
       deleteReport db actor r hist = .error .validationError) ∧
    (∀ db (actor : User) (r : Report) hist hist2,
       deleteReport db actor r hist = .ok hist2 → ∀ e ∈ hist2, e.report_id ≠ r.id) := by
  constructor
  · intro db actor r hist h
    have hb : (r.state != .draft) = true := bne_iff_ne.mpr h
    simp [deleteReport, hb]
  · intro db actor r hist hist2 h e he
    unfold deleteReport at h
    split at h
    · simp at h
    · split at h
      · simp at h
      · simp only [Except.ok.injEq] at h
        rw [← h] at he
        exact bne_iff_ne.mp (List.mem_filter.mp he).2

/-- Claim C7 witness: the system administrator cannot delete an in-progress
report. -/
theorem delete_requires_draft_and_cascades_witness :
    deleteReport dbFix uAdmin repInProgress [] = .error .validationError :=
  delete_requires_draft_and_cascades.1 dbFix uAdmin repInProgress [] (by decide)

/-- Claim C8: when two updates both read the same version of the same
report, the first to commit succeeds and the second fails with Conflict at
commit time — the store never resolves the race by last-write-wins. -/
theorem optimistic_concurrency_conflict (store : Nat → Option Report) (rid : Nat)
    (r : Report) (d1 d2 : List (String × String)) (h : store rid = some r) :
    (commitUpdate store rid r.version d1).isOk = true ∧
      commitTwice store rid r.version r.version d1 d2 = .error .conflict := by
  have hne : (r.version + 1 != r.version) = true := by
    simp [bne_iff_ne]
  have h1 : commitUpdate store rid r.version d1 =
      .ok (fun i => if i = rid then
        some { r with data := d1, version := r.version + 1 } else store i) := by
    simp [commitUpdate, h]
  refine ⟨by simp [h1, Except.isOk, Except.toBool], ?_⟩
  unfold commitTwice
  rw [h1]
  simp [commitUpdate, hne]

/-- Claim C8 witness: two updates of the fixture store both reading version
1 — the first commits, the second receives Conflict. -/
theorem optimistic_concurrency_conflict_witness :
    (commitUpdate storeFix 102 repDraft.version [("a", "x")]).isOk = true ∧
      commitTwice storeFix 102 repDraft.version repDraft.version
        [("a", "x")] [("a", "y")] = .error .conflict :=
  optimistic_concurrency_conflict storeFix 102 repDraft [("a", "x")] [("a", "y")] rfl

/-- Claim C9 counterexample: the claim says a broadcast failure is never
surfaced to the caller, but `broadcastReportChange` re-throws the error
after logging it, so on a failed publish its result is the error, not
success. -/
theorem broadcast_failure_surfaces_counterexample :
    ¬ (broadcastReportChange (.failure "publish failed") "100").result = Except.ok () := by
  simp [broadcastReportChange]

/-- Claim C9 (amended): after a successful committed update, a broadcast
failure is logged and leaves the committed write intact, but the error is
re-thrown to the caller rather than suppressed. -/
theorem broadcast_failure_logged_and_rethrown (db : List User) (actor : User)
    (r : Report) (p : Patch) (e : String) (u : UpdateResult)
    (h : updateReport db actor r p = .ok u) :
    updateAndBroadcast db actor r p (.failure e) =
      ⟨some u, ["Failed to broadcast report change: " ++ e], some e⟩ := by
  simp [updateAndBroadcast, h, broadcastReportChange]

/-- Claim C9 witness: a concrete committed update followed by a failing
publish — the write stands, the failure is logged and re-thrown. -/
theorem broadcast_failure_logged_and_rethrown_witness :
    updateAndBroadcast dbFix uDispatcher repDraft patchData (.failure "net down") =
      ⟨some updRes, ["Failed to broadcast report change: " ++ "net down"], some "net down"⟩ :=
  broadcast_failure_logged_and_rethrown dbFix uDispatcher repDraft patchData
    "net down" updRes rfl

/-- Claim C10: in GET /api/users/:id the existence check runs before the
authorization check — an unknown id yields 404 while an existing user of
another organization yields 403 for a non-admin caller — so the two outcomes
are distinguishable to any authenticated caller. -/
theorem user_lookup_existence_before_authz :
    (∀ db (caller : Caller) uid, findUser db uid = none →
       getUserByIdRoute db caller uid = .notFoundResp) ∧
    (∀ db (caller : Caller) uid u, findUser db uid = some u →
       u.org_id ≠ caller.org_id → caller.role ≠ .system_admin →
       getUserByIdRoute db caller uid = .accessDeniedResp) ∧
    statusOf .notFoundResp ≠ statusOf .accessDeniedResp := by
  refine ⟨?_, ?_, by decide⟩
  · intro db caller uid h
    simp [getUserByIdRoute, h]
  · intro db caller uid u h horg hrole
    have h1 : (u.org_id != caller.org_id) = true := bne_iff_ne.mpr horg
    have h2 : (caller.role != .system_admin) = true := bne_iff_ne.mpr hrole
    simp [getUserByIdRoute, h, h1, h2]

/-- Claim C10 witness: an unknown id yields 404 even for a cross-org caller,
while the dispatcher's record yields 403 for a non-admin caller of another
organization. -/
theorem user_lookup_existence_before_authz_witness :
    getUserByIdRoute dbFix ⟨30, .dispatcher⟩ 999 = .notFoundResp ∧
      getUserByIdRoute dbFix ⟨30, .dispatcher⟩ 1 = .accessDeniedResp :=
  ⟨user_lookup_existence_before_authz.1 dbFix ⟨30, .dispatcher⟩ 999 rfl,
   user_lookup_existence_before_authz.2.1 dbFix ⟨30, .dispatcher⟩ 1 uDispatcher rfl
     (by decide) (by decide)⟩

end MedReport
